import Mathlib

/-
Verification development for the tool-execution engine
(repository `Agentic_Support`, package `ai-support-agent/execution`).

Shallow embedding conventions:
  * machine clock values (`datetime.utcnow()`) are modelled as rational
    timestamps in seconds, passed explicitly to every operation that reads
    the clock;
  * Python floats are modelled as exact rationals;
  * Python dictionaries keyed by strings are modelled as association lists
    with most-recent-first insertion (lookup returns the latest binding,
    matching dict-assignment overwrite semantics);
  * exceptions are modelled as values of an explicit error type; a Python
    function that may raise is modelled as a total Lean function returning
    a sum-like result.
-/

namespace Agentic

/-- Tool execution status, from `execution/models/status.py` (`ToolStatus`). -/
inductive ToolStatus
  | pending
  | running
  | success
  | failed
  | skipped
  | timeout
  | rate_limited
  | circuit_open
  deriving DecidableEq, Repr

/-- Overall execution status, from `execution/models/status.py`
(`ExecutionStatus`); `partialStatus` renders the source's `PARTIAL` member,
renamed because of a Lean keyword clash. -/
inductive ExecutionStatus
  | pending
  | running
  | success
  | failed
  | partialStatus
  | cancelled
  | timeout
  deriving DecidableEq, Repr

/-- Execution strategy mode, from `execution/models/status.py`
(`ExecutionMode`). -/
inductive ExecutionMode
  | sequential
  | parallel
  | conditional
  | compensating
  deriving DecidableEq, Repr

/-- Result of a tool execution, from `execution/models/tool.py`
(`ToolResult`).  The `data` payload is abstracted to an optional string;
`metadata` and `timestamp` are omitted (no claim mentions them). -/
structure ToolResult where
  tool_name : String
  status : ToolStatus
  data : Option String := none
  error : Option String := none
  execution_time_ms : ℚ := 0
  retry_count : ℕ := 0
  deriving DecidableEq, Repr

/-- Derived `success` property of `ToolResult`
(`status == ToolStatus.SUCCESS`). -/
def ToolResult.success (r : ToolResult) : Bool :=
  r.status == ToolStatus.success

/-- Structured error record, from `execution/models/errors.py`
(`ExecutionError`); `timestamp`, `details` and `recoverable` are omitted. -/
structure ExecutionError where
  message : String
  tool_name : Option String := none
  error_code : Option String := none
  error_type : String
  deriving DecidableEq, Repr

/-! ## Circuit breaker (`execution/safety/circuit_breaker.py`) -/

/-- Circuit breaker states, from `CircuitState`; `open_` renders the
source's `OPEN` member (Lean keyword clash). -/
inductive CircuitState
  | closed
  | open_
  | half_open
  deriving DecidableEq, Repr

/-- Circuit breaker configuration, from `CircuitBreakerConfig`. -/
structure CircuitBreakerConfig where
  failure_threshold : ℕ := 5
  success_threshold : ℕ := 2
  timeout_seconds : ℚ := 60
  half_open_max_calls : ℕ := 1
  deriving DecidableEq, Repr

/-- State for a single circuit breaker, from `CircuitBreakerState`. -/
structure CircuitBreakerState where
  config : CircuitBreakerConfig
  state : CircuitState := CircuitState.closed
  failure_count : ℕ := 0
  success_count : ℕ := 0
  last_failure_time : Option ℚ := none
  opened_at : Option ℚ := none
  half_open_calls : ℕ := 0
  deriving DecidableEq, Repr

/-- Fresh breaker state, from `CircuitBreakerState.__init__`. -/
def CircuitBreakerState.init (config : CircuitBreakerConfig) : CircuitBreakerState :=
  { config := config }

/-- Transition to the open state, from `CircuitBreakerState._open`;
`now` is the current clock reading used for `opened_at`. -/
def CircuitBreakerState.toOpen (b : CircuitBreakerState) (now : ℚ) : CircuitBreakerState :=
  { b with
    state := CircuitState.open_
    opened_at := some now
    failure_count := 0
    success_count := 0 }

/-- Transition to the closed state, from `CircuitBreakerState._close`. -/
def CircuitBreakerState.toClosed (b : CircuitBreakerState) : CircuitBreakerState :=
  { b with
    state := CircuitState.closed
    failure_count := 0
    success_count := 0
    opened_at := none }

/-- Lazy can-execute check, from `CircuitBreakerState.can_execute`.
Returns the answer together with the possibly updated state (the check
performs the OPEN to HALF_OPEN transition once the timeout has elapsed). -/
def CircuitBreakerState.can_execute (b : CircuitBreakerState) (now : ℚ) :
    Bool × CircuitBreakerState :=
  match b.state with
  | CircuitState.closed => (true, b)
  | CircuitState.open_ =>
    match b.opened_at with
    | some t =>
      if b.config.timeout_seconds ≤ now - t then
        (true, { b with state := CircuitState.half_open, half_open_calls := 0 })
      else
        (false, b)
    | none => (false, b)
  | CircuitState.half_open =>
    (decide (b.half_open_calls < b.config.half_open_max_calls), b)

/-- Record a successful execution, from
`CircuitBreakerState.record_success`. -/
def CircuitBreakerState.record_success (b : CircuitBreakerState) : CircuitBreakerState :=
  match b.state with
  | CircuitState.half_open =>
    let b' := { b with success_count := b.success_count + 1 }
    if b'.config.success_threshold ≤ b'.success_count then b'.toClosed else b'
  | CircuitState.closed => { b with failure_count := 0 }
  | CircuitState.open_ => b

/-- Record a failed execution, from `CircuitBreakerState.record_failure`. -/
def CircuitBreakerState.record_failure (b : CircuitBreakerState) (now : ℚ) :
    CircuitBreakerState :=
  let b' := { b with last_failure_time := some now }
  match b'.state with
  | CircuitState.half_open => b'.toOpen now
  | CircuitState.closed =>
    let b'' := { b' with failure_count := b'.failure_count + 1 }
    if b''.config.failure_threshold ≤ b''.failure_count then b''.toOpen now else b''
  | CircuitState.open_ => b'

/-- Fold `record_failure` over a list of timestamps (consecutive failure
recordings, in order). -/
def CircuitBreakerState.recordFailures (b : CircuitBreakerState) (ts : List ℚ) :
    CircuitBreakerState :=
  ts.foldl (fun s t => s.record_failure t) b

/-- Iterate `record_success` a number of times. -/
def CircuitBreakerState.recordSuccesses (b : CircuitBreakerState) : ℕ → CircuitBreakerState
  | 0 => b
  | n + 1 => b.record_success.recordSuccesses n

theorem cb_record_failure_closed_lt (b : CircuitBreakerState) (t : ℚ)
    (hst : b.state = CircuitState.closed)
    (hlt : b.failure_count + 1 < b.config.failure_threshold) :
    (b.record_failure t).state = CircuitState.closed ∧
      (b.record_failure t).failure_count = b.failure_count + 1 ∧
      (b.record_failure t).config = b.config := by
  simp only [CircuitBreakerState.record_failure, hst]
  rw [if_neg (by omega)]
  exact ⟨rfl, rfl, rfl⟩

theorem cb_record_failure_closed_hit (b : CircuitBreakerState) (t : ℚ)
    (hst : b.state = CircuitState.closed)
    (hge : b.config.failure_threshold ≤ b.failure_count + 1) :
    b.record_failure t = ({ b with
      last_failure_time := some t
      failure_count := b.failure_count + 1 } : CircuitBreakerState).toOpen t := by
  simp only [CircuitBreakerState.record_failure, hst]
  rw [if_pos hge]

theorem cb_recordFailures_open (ts : List ℚ) (b : CircuitBreakerState)
    (hst : b.state = CircuitState.closed)
    (hcnt : b.failure_count + ts.length = b.config.failure_threshold)
    (hne : ts ≠ []) :
    (b.recordFailures ts).state = CircuitState.open_ ∧
      (b.recordFailures ts).opened_at = ts.getLast? ∧
      (b.recordFailures ts).config = b.config := by
  induction ts generalizing b with
  | nil => exact absurd rfl hne
  | cons t rest ih =>
    cases rest with
    | nil =>
      have hhit := cb_record_failure_closed_hit b t hst
        (by simp only [List.length_cons, List.length_nil] at hcnt; omega)
      simp [CircuitBreakerState.recordFailures, hhit, CircuitBreakerState.toOpen]
    | cons r rest' =>
      have hlt : b.failure_count + 1 < b.config.failure_threshold := by
        simp only [List.length_cons] at hcnt
        omega
      obtain ⟨h1, h2, h3⟩ := cb_record_failure_closed_lt b t hst hlt
      have hstep : b.recordFailures (t :: r :: rest') =
          (b.record_failure t).recordFailures (r :: rest') := by
        simp [CircuitBreakerState.recordFailures]
      have hrec := ih (b.record_failure t) h1
        (by rw [h2, h3]; simp only [List.length_cons] at hcnt ⊢; omega)
        (by simp)
      rw [hstep, List.getLast?_cons_cons]
      exact ⟨hrec.1, hrec.2.1, by rw [hrec.2.2, h3]⟩

theorem cb_successes_close (n : ℕ) (b : CircuitBreakerState)
    (hst : b.state = CircuitState.half_open)
    (hcnt : b.success_count + n = b.config.success_threshold)
    (hpos : 1 ≤ n) :
    (b.recordSuccesses n).state = CircuitState.closed := by
  induction n generalizing b with
  | zero => omega
  | succ m ih =>
    have hsucc : b.recordSuccesses (m + 1) = b.record_success.recordSuccesses m := rfl
    rcases Nat.eq_zero_or_pos m with hm | hm
    · subst hm
      have hhit : b.config.success_threshold ≤ b.success_count + 1 := by omega
      simp [CircuitBreakerState.recordSuccesses, CircuitBreakerState.record_success, hst,
        if_pos hhit, CircuitBreakerState.toClosed]
    · have hlt : ¬ b.config.success_threshold ≤ b.success_count + 1 := by omega
      have hrec : b.record_success =
          ({ b with success_count := b.success_count + 1 } : CircuitBreakerState) := by
        simp [CircuitBreakerState.record_success, hst, if_neg hlt]
      rw [hsucc, hrec]
      exact ih _ hst (by simp; omega) hm

/-- Claim C4: circuit breaker lifecycle.  Starting CLOSED with a zero failure
count, `failure_threshold` consecutive `record_failure` calls open the
breaker (with `opened_at` the last failure time); while open, `can_execute`
returns true exactly when `timeout_seconds` have elapsed since opening, and
then moves the breaker to HALF_OPEN; a `record_success` while CLOSED resets
the failure count; a single `record_failure` while HALF_OPEN reopens with a
fresh `opened_at`; and `success_threshold` consecutive `record_success`
calls from HALF_OPEN (success count zero) close the breaker. -/
theorem circuit_breaker_lifecycle
    (cfg : CircuitBreakerConfig)
    (hF : 1 ≤ cfg.failure_threshold)
    (hS : 1 ≤ cfg.success_threshold)
    (ts : List ℚ) (hlen : ts.length = cfg.failure_threshold) :
    ((CircuitBreakerState.init cfg).recordFailures ts).state = CircuitState.open_ ∧
    ((CircuitBreakerState.init cfg).recordFailures ts).opened_at = ts.getLast? ∧
    (∀ t now : ℚ,
      ((CircuitBreakerState.init cfg).recordFailures ts).opened_at = some t →
      ((((CircuitBreakerState.init cfg).recordFailures ts).can_execute now).1 = true ↔
        cfg.timeout_seconds ≤ now - t) ∧
      (cfg.timeout_seconds ≤ now - t →
        ((((CircuitBreakerState.init cfg).recordFailures ts).can_execute now).2).state =
          CircuitState.half_open)) ∧
    (∀ c : CircuitBreakerState, c.state = CircuitState.closed →
      c.record_success.state = CircuitState.closed ∧
      c.record_success.failure_count = 0) ∧
    (∀ (c : CircuitBreakerState) (now : ℚ), c.state = CircuitState.half_open →
      (c.record_failure now).state = CircuitState.open_ ∧
      (c.record_failure now).opened_at = some now) ∧
    (∀ c : CircuitBreakerState, c.state = CircuitState.half_open →
      c.success_count = 0 → c.config = cfg →
      (c.recordSuccesses cfg.success_threshold).state = CircuitState.closed) := by
  obtain ⟨hopen, hat, hcfg⟩ :=
    cb_recordFailures_open ts (CircuitBreakerState.init cfg) rfl
      (by simpa [CircuitBreakerState.init] using hlen)
      (by rintro rfl; simp [CircuitBreakerState.init] at hlen; omega)
  refine ⟨hopen, hat, ?_, ?_, ?_, ?_⟩
  · intro t now hsome
    constructor
    · simp only [CircuitBreakerState.can_execute, hopen, hsome]
      constructor
      · intro h
        by_contra hlt
        rw [if_neg (by rw [hcfg]; exact hlt)] at h
        exact Bool.false_ne_true h
      · intro h
        rw [if_pos (by rw [hcfg]; exact h)]
    · intro h
      simp only [CircuitBreakerState.can_execute, hopen, hsome]
      rw [if_pos (by rw [hcfg]; exact h)]
  · intro c hc
    simp [CircuitBreakerState.record_success, hc]
  · intro c now hc
    simp [CircuitBreakerState.record_failure, hc, CircuitBreakerState.toOpen]
  · intro c hc hz hcc
    exact cb_successes_close cfg.success_threshold c hc (by rw [hz, hcc]; omega) hS

/-- Concrete breaker configuration used by witnesses: failure threshold 2,
success threshold 2, timeout 60 seconds, one half-open probe call. -/
def cbDemoConfig : CircuitBreakerConfig :=
  { failure_threshold := 2
    success_threshold := 2
    timeout_seconds := 60
    half_open_max_calls := 1 }

/-- Witness for `circuit_breaker_lifecycle` at `cbDemoConfig` and failure
timestamps 0 and 5. -/
theorem circuit_breaker_lifecycle_witness :
    1 ≤ cbDemoConfig.failure_threshold ∧
    1 ≤ cbDemoConfig.success_threshold ∧
    [(0 : ℚ), 5].length = cbDemoConfig.failure_threshold ∧
    ((CircuitBreakerState.init cbDemoConfig).recordFailures [(0 : ℚ), 5]).state =
      CircuitState.open_ :=
  ⟨by decide, by decide, by decide,
    (circuit_breaker_lifecycle cbDemoConfig (by decide) (by decide)
      [(0 : ℚ), 5] (by decide)).1⟩

/-! ## Rate limiter (`execution/safety/rate_limiter.py`) -/

/-- Token-bucket rate limiter state, from `RateLimiter`.  The configuration
fields (`max_calls`, `window_seconds`, `burst_size`, the latter already
resolved to `burst_size or max_calls`) are inlined; `refill_rate` is the
value computed in `__init__` (`max_calls / window_seconds`). -/
structure RateLimiter where
  max_calls : ℚ
  window_seconds : ℚ
  burst_size : ℚ
  tokens : ℚ
  last_update : ℚ
  deriving DecidableEq, Repr

/-- Refill rate in tokens per second, from `RateLimiter.__init__`
(`config.max_calls / config.window_seconds`). -/
def RateLimiter.refill_rate (s : RateLimiter) : ℚ :=
  s.max_calls / s.window_seconds

/-- Lazy token refill, from `RateLimiter._refill`; `now` is the clock
reading. -/
def RateLimiter.refill (s : RateLimiter) (now : ℚ) : RateLimiter :=
  let elapsed := now - s.last_update
  let tokens_to_add := elapsed * s.refill_rate
  { s with tokens := min s.burst_size (s.tokens + tokens_to_add), last_update := now }

/-- Token acquisition, from `RateLimiter.acquire`: refill, then grant and
deduct when enough tokens are available, otherwise deny. -/
def RateLimiter.acquire (s : RateLimiter) (now : ℚ) (tokens : ℕ) : Bool × RateLimiter :=
  let s' := s.refill now
  if (tokens : ℚ) ≤ s'.tokens then
    (true, { s' with tokens := s'.tokens - tokens })
  else
    (false, s')

/-- Claim C5: `acquire` grants exactly when, after the lazy refill of
`elapsed * (max_calls / window_seconds)` tokens capped at `burst_size`, at
least the requested number of tokens is available; when granted it deducts
exactly the requested number, and when denied it deducts nothing beyond the
refill. -/
theorem rate_limiter_acquire_spec (s : RateLimiter) (now : ℚ) (req : ℕ) :
    ((s.acquire now req).1 = true ↔
      (req : ℚ) ≤ min s.burst_size
        (s.tokens + (now - s.last_update) * (s.max_calls / s.window_seconds))) ∧
    ((s.acquire now req).1 = true →
      (s.acquire now req).2.tokens = min s.burst_size
        (s.tokens + (now - s.last_update) * (s.max_calls / s.window_seconds)) - req) ∧
    ((s.acquire now req).1 = false →
      (s.acquire now req).2.tokens = min s.burst_size
        (s.tokens + (now - s.last_update) * (s.max_calls / s.window_seconds))) := by
  have hav : (s.refill now).tokens =
      min s.burst_size
        (s.tokens + (now - s.last_update) * (s.max_calls / s.window_seconds)) := rfl
  by_cases h : (req : ℚ) ≤ (s.refill now).tokens
  · have hacq : s.acquire now req =
        (true, { s.refill now with tokens := (s.refill now).tokens - req }) := by
      simp only [RateLimiter.acquire]
      rw [if_pos h]
    refine ⟨⟨fun _ => hav ▸ h, fun _ => ?_⟩, fun _ => ?_, fun hf => ?_⟩
    · rw [hacq]
    · rw [hacq, ← hav]
    · rw [hacq] at hf
      exact absurd hf (by simp)
  · have hacq : s.acquire now req = (false, s.refill now) := by
      simp only [RateLimiter.acquire]
      rw [if_neg h]
    refine ⟨⟨fun ht => ?_, fun hle => absurd (hav ▸ hle) h⟩, fun ht => ?_, fun _ => ?_⟩
    · rw [hacq] at ht
      exact absurd ht (by simp)
    · rw [hacq] at ht
      exact absurd ht (by simp)
    · rw [hacq, ← hav]

/-- Witness for `rate_limiter_acquire_spec`: a bucket with 60 calls per 60
seconds, burst 60, 0 tokens left at time 0, queried for 1 token at time 1
(exactly one token has refilled). -/
theorem rate_limiter_acquire_spec_witness :
    (({ max_calls := 60, window_seconds := 60, burst_size := 60, tokens := 0,
        last_update := 0 } : RateLimiter).acquire 1 1).1 = true ∧
    (({ max_calls := 60, window_seconds := 60, burst_size := 60, tokens := 0,
        last_update := 0 } : RateLimiter).acquire 1 1).2.tokens = 0 :=
  ⟨(rate_limiter_acquire_spec
      { max_calls := 60, window_seconds := 60, burst_size := 60, tokens := 0,
        last_update := 0 } 1 1).1.mpr (by norm_num),
   by
    have h := (rate_limiter_acquire_spec
      { max_calls := 60, window_seconds := 60, burst_size := 60, tokens := 0,
        last_update := 0 } 1 1).2.1
      ((rate_limiter_acquire_spec
        { max_calls := 60, window_seconds := 60, burst_size := 60, tokens := 0,
          last_update := 0 } 1 1).1.mpr (by norm_num))
    rw [h]
    norm_num⟩

/-! ## Retry strategy (`execution/safety/retries.py`) -/

/-- Retry configuration, from `RetryConfig`; the retryable-exception set is
modelled as a predicate on exceptions (`retryable` field of the executor
model below), so only the numeric fields live here. -/
structure RetryConfig where
  max_attempts : ℕ := 3
  initial_delay_seconds : ℚ := 1
  max_delay_seconds : ℚ := 60
  exponential_base : ℚ := 2
  jitter : Bool := true
  deriving DecidableEq, Repr

/-- Backoff delay for a 0-indexed attempt, from
`RetryStrategy._calculate_delay`.  The uniform jitter sample
`random.uniform(-jitter_range, jitter_range)` is modelled by the explicit
argument `j` (constrained by hypotheses where needed); the source computes
`delay = min(initial * base^attempt, max_delay)`, adds the jitter sample
when `jitter` is set, and clamps at zero. -/
def RetryStrategy.calculate_delay (config : RetryConfig) (attempt : ℕ) (j : ℚ) : ℚ :=
  let delay := config.initial_delay_seconds * config.exponential_base ^ attempt
  let delay := min delay config.max_delay_seconds
  let delay := if config.jitter then delay + j else delay
  max 0 delay

/-- Exception kinds distinguished by the executor's handlers
(`execution/models/errors.py`): the three short-circuit error classes, the
timeout error raised by `TimeoutHandler`, and any other exception. -/
inductive ExcKind
  | validation
  | circuit
  | rate_limit
  | timeout_exc
  | generic
  deriving DecidableEq, Repr

/-- A Python exception, abstracted to its class (as far as the executor's
`isinstance` checks distinguish it) and its `str(e)` message. -/
structure Exc where
  kind : ExcKind
  message : String
  deriving DecidableEq, Repr

/-- Outcome of one invocation of the wrapped unit of work: a returned value
or a raised exception. -/
inductive Attempt (α : Type) where
  | ok (a : α)
  | raise (e : Exc)
  deriving DecidableEq, Repr

/-- Outcome of `RetryStrategy.execute` / `execute_with_result`: the returned
value (with the number of attempts consumed, as reported by
`execute_with_result`), a re-raised exception (also with the number of
attempts consumed), or the defensive `RuntimeError` of the dead fall-through
branch. -/
inductive RetryOutcome (α : Type) where
  | ok (a : α) (attempts : ℕ)
  | raised (e : Exc) (attempts : ℕ)
  | runtimeError
  deriving DecidableEq, Repr

/-- One iteration of the retry loop `for attempt in range(max_attempts)` in
`RetryStrategy.execute` / `execute_with_result`: call the work, return on
success, re-raise a non-retryable exception, re-raise once no attempts
remain, otherwise sleep and loop.  `fuel` is `max_attempts - attempt` and
only bounds the recursion; the fall-through after the loop is the source's
`RuntimeError` branch. -/
def retryLoop {α : Type} (retryable : Exc → Bool) (max_attempts : ℕ)
    (outcomes : ℕ → Attempt α) : ℕ → ℕ → RetryOutcome α
  | 0, _ => RetryOutcome.runtimeError
  | fuel + 1, attempt =>
    match outcomes attempt with
    | Attempt.ok a => RetryOutcome.ok a (attempt + 1)
    | Attempt.raise e =>
      if retryable e = false then RetryOutcome.raised e (attempt + 1)
      else if max_attempts - 1 ≤ attempt then RetryOutcome.raised e (attempt + 1)
      else retryLoop retryable max_attempts outcomes fuel (attempt + 1)

/-- Retry execution, from `RetryStrategy.execute` and
`execute_with_result` (which share the loop structure; the attempt count
carried by `RetryOutcome` is what `execute_with_result` returns). -/
def RetryStrategy.run {α : Type} (retryable : Exc → Bool) (max_attempts : ℕ)
    (outcomes : ℕ → Attempt α) : RetryOutcome α :=
  retryLoop retryable max_attempts outcomes max_attempts 0

theorem retryLoop_all_raise {α : Type} (retryable : Exc → Bool) (max_attempts : ℕ)
    (outcomes : ℕ → Attempt α) (es : ℕ → Exc)
    (hout : ∀ i, i < max_attempts → outcomes i = Attempt.raise (es i))
    (hretry : ∀ i, i < max_attempts → retryable (es i) = true) :
    ∀ fuel attempt, attempt + fuel = max_attempts → 1 ≤ fuel →
      retryLoop retryable max_attempts outcomes fuel attempt =
        RetryOutcome.raised (es (max_attempts - 1)) max_attempts := by
  intro fuel
  induction fuel with
  | zero => omega
  | succ m ih =>
    intro attempt hsum _
    have hlt : attempt < max_attempts := by omega
    simp only [retryLoop, hout attempt hlt, hretry attempt hlt]
    rcases Nat.eq_zero_or_pos m with hm | hm
    · have hlast : max_attempts - 1 ≤ attempt := by omega
      rw [if_neg (by simp), if_pos hlast]
      have : attempt = max_attempts - 1 := by omega
      rw [this]
      congr 1
      omega
    · have hmore : ¬ max_attempts - 1 ≤ attempt := by omega
      rw [if_neg (by simp), if_neg hmore]
      exact ih (attempt + 1) (by omega) (by omega)

/-- Claim C6: retry backoff and exhaustion.  Without jitter the delay for
0-indexed attempt `n` is `min(initial_delay * base^n, max_delay)`; with
jitter and a sample within the source's `±25%` range the delay stays within
`±25%` of the unjittered value; and when every attempt raises a retryable
exception, the loop re-raises the last attempt's exception after exactly
`max_attempts` tries. -/
theorem retry_backoff_and_exhaustion
    (config : RetryConfig)
    (hinit : 0 ≤ config.initial_delay_seconds)
    (hbase : 0 ≤ config.exponential_base)
    (hmax : 0 ≤ config.max_delay_seconds)
    {α : Type} (outcomes : ℕ → Attempt α) (retryable : Exc → Bool) (es : ℕ → Exc)
    (hatt : 1 ≤ config.max_attempts)
    (hout : ∀ i, i < config.max_attempts → outcomes i = Attempt.raise (es i))
    (hretry : ∀ i, i < config.max_attempts → retryable (es i) = true) :
    (config.jitter = false → ∀ n : ℕ,
      RetryStrategy.calculate_delay config n 0 =
        min (config.initial_delay_seconds * config.exponential_base ^ n)
          config.max_delay_seconds) ∧
    (config.jitter = true → ∀ (n : ℕ) (j : ℚ),
      |j| ≤ (1 / 4) *
          min (config.initial_delay_seconds * config.exponential_base ^ n)
            config.max_delay_seconds →
      |RetryStrategy.calculate_delay config n j -
          min (config.initial_delay_seconds * config.exponential_base ^ n)
            config.max_delay_seconds| ≤
        (1 / 4) *
          min (config.initial_delay_seconds * config.exponential_base ^ n)
            config.max_delay_seconds) ∧
    RetryStrategy.run retryable config.max_attempts outcomes =
      RetryOutcome.raised (es (config.max_attempts - 1)) config.max_attempts := by
  have hd : ∀ n : ℕ, 0 ≤ min (config.initial_delay_seconds * config.exponential_base ^ n)
      config.max_delay_seconds := by
    intro n
    exact le_min (mul_nonneg hinit (pow_nonneg hbase n)) hmax
  refine ⟨?_, ?_, ?_⟩
  · intro hj n
    simp only [RetryStrategy.calculate_delay, hj, if_false]
    exact max_eq_right (hd n)
  · intro hj n j hjle
    have habs := abs_le.mp hjle
    have hnz : 0 ≤ min (config.initial_delay_seconds * config.exponential_base ^ n)
        config.max_delay_seconds + j := by
      nlinarith [hd n]
    simp only [RetryStrategy.calculate_delay, hj, if_true, max_eq_right hnz]
    simpa using hjle
  · exact retryLoop_all_raise retryable config.max_attempts outcomes es hout hretry
      config.max_attempts 0 (by omega) hatt

/-- Witness for `retry_backoff_and_exhaustion`: the default configuration
without jitter (3 attempts, initial delay 1, base 2, cap 60), every attempt
raising the same retryable generic exception. -/
theorem retry_backoff_and_exhaustion_witness :
    RetryStrategy.run (fun _ => true) 3
        (fun _ => (Attempt.raise ⟨ExcKind.generic, "boom"⟩ : Attempt ℕ)) =
      RetryOutcome.raised ⟨ExcKind.generic, "boom"⟩ 3 ∧
    RetryStrategy.calculate_delay
        { max_attempts := 3, initial_delay_seconds := 1, max_delay_seconds := 60,
          exponential_base := 2, jitter := false } 2 0 = 4 :=
  ⟨by
    have h := (retry_backoff_and_exhaustion
      { max_attempts := 3, initial_delay_seconds := 1, max_delay_seconds := 60,
        exponential_base := 2, jitter := false }
      (by norm_num) (by norm_num) (by norm_num)
      (fun _ => (Attempt.raise ⟨ExcKind.generic, "boom"⟩ : Attempt ℕ))
      (fun _ => true) (fun _ => ⟨ExcKind.generic, "boom"⟩)
      (by norm_num) (fun _ _ => rfl) (fun _ _ => rfl)).2.2
    simpa using h,
   by
    have h := (retry_backoff_and_exhaustion
      { max_attempts := 3, initial_delay_seconds := 1, max_delay_seconds := 60,
        exponential_base := 2, jitter := false }
      (by norm_num) (by norm_num) (by norm_num)
      (fun _ => (Attempt.raise ⟨ExcKind.generic, "boom"⟩ : Attempt ℕ))
      (fun _ => true) (fun _ => ⟨ExcKind.generic, "boom"⟩)
      (by norm_num) (fun _ _ => rfl) (fun _ _ => rfl)).1 rfl 2
    rw [h]
    norm_num⟩

/-! ## Tool executor (`execution/core/executor.py`) -/

/-- Observable outcome of one `ToolExecutor.execute` invocation: the
returned `ToolResult` together with which pipeline steps ran (whether the
circuit breaker and the rate limiter were consulted, how many times the
wrapped work was invoked) and which circuit breaker recordings happened. -/
structure ExecTrace where
  result : ToolResult
  breaker_checked : Bool
  rate_checked : Bool
  attempts_made : ℕ
  recorded_success : Bool
  recorded_failure : Bool
  deriving DecidableEq, Repr

/-- The `ToolExecutor.execute` pipeline.  The collaborating services are
abstracted to their answers for this one call: `validation_is_valid` and
`validation_errors` stand for `validator.validate_params`,
`breaker_allows` for `circuit_breaker.can_execute`, `rate_acquired` for
`rate_limiter.acquire`, and `outcomes` gives, per 0-indexed attempt, what
the timeout-wrapped tool invocation does (returns a `ToolResult` or raises).
The two `except` clauses of the source are rendered by the match on the
raised exception's kind: the three short-circuit error classes map to
`failed` / `circuit_open` / `rate_limited` without recording a breaker
failure, every other exception records a breaker failure and maps to
`failed` with `error = str(e)`.  Result-payload validation (step 6) is
log-only in the source and has no observable effect here. -/
def ToolExecutor.execute (tool_name : String) (validation_is_valid : Bool)
    (validation_errors : String) (breaker_allows : Bool) (rate_acquired : Bool)
    (retryable : Exc → Bool) (max_attempts : ℕ)
    (outcomes : ℕ → Attempt ToolResult) (execution_time : ℚ) : ExecTrace :=
  if validation_is_valid = false then
    { result :=
        { tool_name := tool_name
          status := ToolStatus.failed
          error := some ("Parameter validation failed: " ++ validation_errors)
          execution_time_ms := execution_time }
      breaker_checked := false
      rate_checked := false
      attempts_made := 0
      recorded_success := false
      recorded_failure := false }
  else if breaker_allows = false then
    { result :=
        { tool_name := tool_name
          status := ToolStatus.circuit_open
          error := some ("Circuit breaker is open for tool: " ++ tool_name)
          execution_time_ms := execution_time }
      breaker_checked := true
      rate_checked := false
      attempts_made := 0
      recorded_success := false
      recorded_failure := false }
  else if rate_acquired = false then
    { result :=
        { tool_name := tool_name
          status := ToolStatus.rate_limited
          error := some ("Rate limit exceeded for tool: " ++ tool_name)
          execution_time_ms := execution_time }
      breaker_checked := true
      rate_checked := true
      attempts_made := 0
      recorded_success := false
      recorded_failure := false }
  else
    match RetryStrategy.run retryable max_attempts outcomes with
    | RetryOutcome.ok r n =>
      { result := { r with retry_count := n - 1 }
        breaker_checked := true
        rate_checked := true
        attempts_made := n
        recorded_success := true
        recorded_failure := false }
    | RetryOutcome.raised e n =>
      match e.kind with
      | ExcKind.validation =>
        { result :=
            { tool_name := tool_name
              status := ToolStatus.failed
              error := some e.message
              execution_time_ms := execution_time }
          breaker_checked := true
          rate_checked := true
          attempts_made := n
          recorded_success := false
          recorded_failure := false }
      | ExcKind.circuit =>
        { result :=
            { tool_name := tool_name
              status := ToolStatus.circuit_open
              error := some e.message
              execution_time_ms := execution_time }
          breaker_checked := true
          rate_checked := true
          attempts_made := n
          recorded_success := false
          recorded_failure := false }
      | ExcKind.rate_limit =>
        { result :=
            { tool_name := tool_name
              status := ToolStatus.rate_limited
              error := some e.message
              execution_time_ms := execution_time }
          breaker_checked := true
          rate_checked := true
          attempts_made := n
          recorded_success := false
          recorded_failure := false }
      | ExcKind.timeout_exc =>
        { result :=
            { tool_name := tool_name
              status := ToolStatus.failed
              error := some e.message
              execution_time_ms := execution_time }
          breaker_checked := true
          rate_checked := true
          attempts_made := n
          recorded_success := false
          recorded_failure := true }
      | ExcKind.generic =>
        { result :=
            { tool_name := tool_name
              status := ToolStatus.failed
              error := some e.message
              execution_time_ms := execution_time }
          breaker_checked := true
          rate_checked := true
          attempts_made := n
          recorded_success := false
          recorded_failure := true }
    | RetryOutcome.runtimeError =>
      { result :=
          { tool_name := tool_name
            status := ToolStatus.failed
            error := some "Retry logic failed unexpectedly"
            execution_time_ms := execution_time }
        breaker_checked := true
        rate_checked := true
        attempts_made := 0
        recorded_success := false
        recorded_failure := true }

/-- Claim C3: the executor is total (it is a function into `ExecTrace`, so
no exception reaches the caller) and short-circuits correctly: a
parameter-validation failure yields `failed` with no later pipeline step; an
open circuit yields `circuit_open` without consulting the rate limiter or
invoking the work; a denied rate-limit acquire yields `rate_limited` without
invoking the work; and a final raised exception of any kind becomes a
`ToolResult` carrying the exception's message. -/
theorem executor_short_circuit_spec (tool_name validation_errors : String)
    (valid brk rate : Bool) (retryable : Exc → Bool) (max_attempts : ℕ)
    (outcomes : ℕ → Attempt ToolResult) (execution_time : ℚ) :
    (valid = false →
      (ToolExecutor.execute tool_name valid validation_errors brk rate retryable
          max_attempts outcomes execution_time).result.status = ToolStatus.failed ∧
      (ToolExecutor.execute tool_name valid validation_errors brk rate retryable
          max_attempts outcomes execution_time).breaker_checked = false ∧
      (ToolExecutor.execute tool_name valid validation_errors brk rate retryable
          max_attempts outcomes execution_time).rate_checked = false ∧
      (ToolExecutor.execute tool_name valid validation_errors brk rate retryable
          max_attempts outcomes execution_time).attempts_made = 0) ∧
    (valid = true → brk = false →
      (ToolExecutor.execute tool_name valid validation_errors brk rate retryable
          max_attempts outcomes execution_time).result.status = ToolStatus.circuit_open ∧
      (ToolExecutor.execute tool_name valid validation_errors brk rate retryable
          max_attempts outcomes execution_time).rate_checked = false ∧
      (ToolExecutor.execute tool_name valid validation_errors brk rate retryable
          max_attempts outcomes execution_time).attempts_made = 0) ∧
    (valid = true → brk = true → rate = false →
      (ToolExecutor.execute tool_name valid validation_errors brk rate retryable
          max_attempts outcomes execution_time).result.status = ToolStatus.rate_limited ∧
      (ToolExecutor.execute tool_name valid validation_errors brk rate retryable
          max_attempts outcomes execution_time).attempts_made = 0) ∧
    (∀ e n, valid = true → brk = true → rate = true →
      RetryStrategy.run retryable max_attempts outcomes = RetryOutcome.raised e n →
      (ToolExecutor.execute tool_name valid validation_errors brk rate retryable
          max_attempts outcomes execution_time).result.error = some e.message ∧
      ((ToolExecutor.execute tool_name valid validation_errors brk rate retryable
          max_attempts outcomes execution_time).result.status = ToolStatus.failed ∨
       (ToolExecutor.execute tool_name valid validation_errors brk rate retryable
          max_attempts outcomes execution_time).result.status = ToolStatus.circuit_open ∨
       (ToolExecutor.execute tool_name valid validation_errors brk rate retryable
          max_attempts outcomes execution_time).result.status = ToolStatus.rate_limited)) := by
  refine ⟨?_, ?_, ?_, ?_⟩
  · rintro rfl
    simp [ToolExecutor.execute]
  · rintro rfl rfl
    simp [ToolExecutor.execute]
  · rintro rfl rfl rfl
    simp [ToolExecutor.execute]
  · rintro e n rfl rfl rfl hrun
    simp only [ToolExecutor.execute, hrun]
    cases e.kind <;> simp

/-- Witness for `executor_short_circuit_spec`: a validation failure
short-circuits the whole pipeline. -/
theorem executor_short_circuit_spec_witness :
    (ToolExecutor.execute "t" false "bad params" true true (fun _ => true) 3
        (fun _ => Attempt.raise ⟨ExcKind.generic, "boom"⟩) 0).result.status =
      ToolStatus.failed ∧
    (ToolExecutor.execute "t" false "bad params" true true (fun _ => true) 3
        (fun _ => Attempt.raise ⟨ExcKind.generic, "boom"⟩) 0).breaker_checked = false ∧
    (ToolExecutor.execute "t" false "bad params" true true (fun _ => true) 3
        (fun _ => Attempt.raise ⟨ExcKind.generic, "boom"⟩) 0).rate_checked = false ∧
    (ToolExecutor.execute "t" false "bad params" true true (fun _ => true) 3
        (fun _ => Attempt.raise ⟨ExcKind.generic, "boom"⟩) 0).attempts_made = 0 :=
  (executor_short_circuit_spec "t" "bad params" false true true (fun _ => true) 3
      (fun _ => Attempt.raise ⟨ExcKind.generic, "boom"⟩) 0).1 rfl

/-- Claim C1, counterexample: with three attempts all raising the timeout
error (deadline exceeded on every try, retryable by the default
configuration), the executor returns status `failed` — not `timeout` — and
`retry_count = 0` — not `attempts - 1 = 2` — because the exception path
never reaches the line that stores the attempt count on the result.  The
breaker failure is recorded. -/
theorem executor_retries_exhausted_counterexample :
    (ToolExecutor.execute "t" true "" true true (fun _ => true) 3
        (fun _ => Attempt.raise ⟨ExcKind.timeout_exc, "Execution exceeded timeout of 30s"⟩)
        0).result.status = ToolStatus.failed ∧
    (ToolExecutor.execute "t" true "" true true (fun _ => true) 3
        (fun _ => Attempt.raise ⟨ExcKind.timeout_exc, "Execution exceeded timeout of 30s"⟩)
        0).result.status ≠ ToolStatus.timeout ∧
    (ToolExecutor.execute "t" true "" true true (fun _ => true) 3
        (fun _ => Attempt.raise ⟨ExcKind.timeout_exc, "Execution exceeded timeout of 30s"⟩)
        0).result.retry_count = 0 ∧
    (ToolExecutor.execute "t" true "" true true (fun _ => true) 3
        (fun _ => Attempt.raise ⟨ExcKind.timeout_exc, "Execution exceeded timeout of 30s"⟩)
        0).result.retry_count ≠ 3 - 1 ∧
    (ToolExecutor.execute "t" true "" true true (fun _ => true) 3
        (fun _ => Attempt.raise ⟨ExcKind.timeout_exc, "Execution exceeded timeout of 30s"⟩)
        0).recorded_failure = true := by
  refine ⟨rfl, by decide, rfl, by decide, rfl⟩

/-- Claim C1 as amended: when every attempt raises a retryable exception
until `max_attempts` are exhausted and the final exception is a timeout or
generic one, the executor records a failure in the circuit breaker and
returns a `ToolResult` whose status is `failed` (also when the deadline was
exceeded — the `timeout` status is never produced), whose error carries the
exception message, and whose `retry_count` is 0 (the attempt count is only
stored on the success path). -/
theorem executor_retries_exhausted_amended
    (tool_name validation_errors : String) (retryable : Exc → Bool)
    (max_attempts : ℕ) (outcomes : ℕ → Attempt ToolResult) (es : ℕ → Exc)
    (execution_time : ℚ)
    (hatt : 1 ≤ max_attempts)
    (hout : ∀ i, i < max_attempts → outcomes i = Attempt.raise (es i))
    (hretry : ∀ i, i < max_attempts → retryable (es i) = true)
    (hkind : (es (max_attempts - 1)).kind = ExcKind.timeout_exc ∨
      (es (max_attempts - 1)).kind = ExcKind.generic) :
    (ToolExecutor.execute tool_name true validation_errors true true retryable
        max_attempts outcomes execution_time).recorded_failure = true ∧
    (ToolExecutor.execute tool_name true validation_errors true true retryable
        max_attempts outcomes execution_time).result.status = ToolStatus.failed ∧
    (ToolExecutor.execute tool_name true validation_errors true true retryable
        max_attempts outcomes execution_time).result.error =
      some (es (max_attempts - 1)).message ∧
    (ToolExecutor.execute tool_name true validation_errors true true retryable
        max_attempts outcomes execution_time).result.retry_count = 0 := by
  have hrun : RetryStrategy.run retryable max_attempts outcomes =
      RetryOutcome.raised (es (max_attempts - 1)) max_attempts :=
    retryLoop_all_raise retryable max_attempts outcomes es hout hretry
      max_attempts 0 (by omega) hatt
  rcases hkind with hk | hk <;>
    simp [ToolExecutor.execute, hrun, hk]

/-- Witness for `executor_retries_exhausted_amended` at the counterexample's
concrete input (three timeout-raising attempts). -/
theorem executor_retries_exhausted_amended_witness :
    (ToolExecutor.execute "t" true "" true true (fun _ => true) 3
        (fun _ => Attempt.raise ⟨ExcKind.timeout_exc, "Execution exceeded timeout of 30s"⟩)
        0).recorded_failure = true ∧
    (ToolExecutor.execute "t" true "" true true (fun _ => true) 3
        (fun _ => Attempt.raise ⟨ExcKind.timeout_exc, "Execution exceeded timeout of 30s"⟩)
        0).result.status = ToolStatus.failed ∧
    (ToolExecutor.execute "t" true "" true true (fun _ => true) 3
        (fun _ => Attempt.raise ⟨ExcKind.timeout_exc, "Execution exceeded timeout of 30s"⟩)
        0).result.error = some "Execution exceeded timeout of 30s" ∧
    (ToolExecutor.execute "t" true "" true true (fun _ => true) 3
        (fun _ => Attempt.raise ⟨ExcKind.timeout_exc, "Execution exceeded timeout of 30s"⟩)
        0).result.retry_count = 0 :=
  executor_retries_exhausted_amended "t" "" (fun _ => true) 3
    (fun _ => Attempt.raise ⟨ExcKind.timeout_exc, "Execution exceeded timeout of 30s"⟩)
    (fun _ => ⟨ExcKind.timeout_exc, "Execution exceeded timeout of 30s"⟩) 0
    (by decide) (fun _ _ => rfl) (fun _ _ => rfl) (Or.inl rfl)

/-! ## Execution context (`execution/core/context.py`) -/

/-- Execution context, from `ExecutionContext`.  `results`, `errors`,
`_execution_order` and `status` are carried over directly; the
`_tool_results` dict is an association list with the newest binding first;
`completed` stands for `end_time is not None` (timestamps and the shared
key-value map are otherwise omitted, no claim touches them). -/
structure ExecutionContext where
  results : List ToolResult := []
  errors : List ExecutionError := []
  tool_results : List (String × ToolResult) := []
  execution_order : List String := []
  status : ExecutionStatus := ExecutionStatus.pending
  completed : Bool := false
  deriving DecidableEq, Repr

/-- Add a tool result, from `ExecutionContext.add_result`: append to
`results`, overwrite the per-name dict entry, append to the execution
order. -/
def ExecutionContext.add_result (c : ExecutionContext) (r : ToolResult) : ExecutionContext :=
  { c with
    results := c.results ++ [r]
    tool_results := (r.tool_name, r) :: c.tool_results
    execution_order := c.execution_order ++ [r.tool_name] }

/-- Add an error, from `ExecutionContext.add_error`. -/
def ExecutionContext.add_error (c : ExecutionContext) (e : ExecutionError) : ExecutionContext :=
  { c with errors := c.errors ++ [e] }

/-- Per-name lookup, from `ExecutionContext.get_result`
(`self._tool_results.get(tool_name)`). -/
def ExecutionContext.get_result (c : ExecutionContext) (tool_name : String) :
    Option ToolResult :=
  (c.tool_results.find? (fun p => p.1 == tool_name)).map Prod.snd

/-- Mark the context complete, from `ExecutionContext.complete`. -/
def ExecutionContext.complete (c : ExecutionContext) (status : ExecutionStatus) :
    ExecutionContext :=
  { c with status := status, completed := true }

/-- Fold `add_result` over a list of results, in order. -/
def ExecutionContext.addResults (c : ExecutionContext) (rs : List ToolResult) :
    ExecutionContext :=
  rs.foldl ExecutionContext.add_result c

theorem context_addResults_results (c : ExecutionContext) (rs : List ToolResult) :
    (c.addResults rs).results = c.results ++ rs := by
  induction rs generalizing c with
  | nil => simp [ExecutionContext.addResults]
  | cons r rest ih =>
    have hstep : c.addResults (r :: rest) = (c.add_result r).addResults rest := rfl
    rw [hstep, ih]
    simp [ExecutionContext.add_result]

theorem context_add_one_get (c : ExecutionContext) (r : ToolResult) (n : String) :
    (c.add_result r).get_result n = if r.tool_name == n then some r else c.get_result n := by
  simp only [ExecutionContext.add_result, ExecutionContext.get_result, List.find?]
  cases h : r.tool_name == n <;> simp [h]

/-- Claim C10: over any sequence of `add_result` calls the `results` list
preserves insertion order (the new results are appended, in order, so the
list grows by exactly one per call and duplicated tool names all remain),
while `get_result` returns the most recently added result bearing the
queried tool name, falling back to the prior binding when none of the added
results carries it. -/
theorem context_add_result_spec (c : ExecutionContext) (rs : List ToolResult) (n : String) :
    (c.addResults rs).results = c.results ++ rs ∧
    (∀ r : ToolResult, (c.add_result r).results.length = c.results.length + 1) ∧
    (c.addResults rs).get_result n =
      (rs.reverse.find? (fun r => r.tool_name == n)).or (c.get_result n) := by
  refine ⟨context_addResults_results c rs,
    fun r => by simp [ExecutionContext.add_result], ?_⟩
  · induction rs generalizing c with
    | nil => simp [ExecutionContext.addResults]
    | cons r rest ih =>
      have hstep : c.addResults (r :: rest) = (c.add_result r).addResults rest := rfl
      rw [hstep, ih, List.reverse_cons, List.find?_append, Option.or_assoc,
        context_add_one_get]
      cases h : r.tool_name == n <;> simp [List.find?, h]

/-- Witness for `context_add_result_spec`: two results named "a" added to an
empty context; both stay in the list, the lookup sees the later one. -/
theorem context_add_result_spec_witness :
    (({} : ExecutionContext).addResults
        [{ tool_name := "a", status := ToolStatus.success, execution_time_ms := 1 },
         { tool_name := "a", status := ToolStatus.failed, execution_time_ms := 2 }]).results =
      [{ tool_name := "a", status := ToolStatus.success, execution_time_ms := 1 },
       { tool_name := "a", status := ToolStatus.failed, execution_time_ms := 2 }] ∧
    (({} : ExecutionContext).addResults
        [{ tool_name := "a", status := ToolStatus.success, execution_time_ms := 1 },
         { tool_name := "a", status := ToolStatus.failed, execution_time_ms := 2 }]).get_result
        "a" =
      some { tool_name := "a", status := ToolStatus.failed, execution_time_ms := 2 } := by
  have h := context_add_result_spec ({} : ExecutionContext)
    [{ tool_name := "a", status := ToolStatus.success, execution_time_ms := 1 },
     { tool_name := "a", status := ToolStatus.failed, execution_time_ms := 2 }] "a"
  exact ⟨by rw [h.1]; rfl, by rw [h.2.2]; rfl⟩

/-! ## Result aggregation (`execution/core/result.py`) -/

/-- Overall status derivation, from `ResultAggregator._determine_status`:
pending on no results and no errors, else the cascade over the success /
failed / timeout counts of the result list. -/
def ResultAggregator.determine_status (results : List ToolResult)
    (errors : List ExecutionError) : ExecutionStatus :=
  if results = [] ∧ errors = [] then ExecutionStatus.pending
  else
    let success_count := (results.filter (fun r => r.status == ToolStatus.success)).length
    let failed_count := (results.filter (fun r => r.status == ToolStatus.failed)).length
    let timeout_count := (results.filter (fun r => r.status == ToolStatus.timeout)).length
    let total_count := results.length
    if success_count = total_count ∧ 0 < total_count then ExecutionStatus.success
    else if failed_count = total_count ∨ failed_count + timeout_count = total_count then
      ExecutionStatus.failed
    else if 0 < timeout_count then ExecutionStatus.timeout
    else if 0 < success_count ∧ 0 < failed_count then ExecutionStatus.partialStatus
    else ExecutionStatus.failed

theorem filter_length_eq_all {α : Type} (p : α → Bool) (l : List α)
    (h : (l.filter p).length = l.length) : ∀ a ∈ l, p a = true :=
  List.filter_eq_self.mp ((List.filter_sublist l).eq_of_length h)

theorem count_failed_timeout_le (rs : List ToolResult) :
    (rs.filter (fun r => r.status == ToolStatus.failed)).length +
      (rs.filter (fun r => r.status == ToolStatus.timeout)).length ≤ rs.length := by
  induction rs with
  | nil => simp
  | cons r rest ih =>
    rw [List.filter_cons, List.filter_cons]
    by_cases hf : r.status = ToolStatus.failed
    · rw [if_pos (by simp [hf]), if_neg (by simp [hf])]
      simp only [List.length_cons]
      omega
    · by_cases ht : r.status = ToolStatus.timeout
      · rw [if_neg (by simp [hf]), if_pos (by simp [ht])]
        simp only [List.length_cons]
        omega
      · rw [if_neg (by simp [hf]), if_neg (by simp [ht])]
        simp only [List.length_cons]
        omega

theorem count_failed_timeout_iff (rs : List ToolResult) :
    (rs.filter (fun r => r.status == ToolStatus.failed)).length +
        (rs.filter (fun r => r.status == ToolStatus.timeout)).length = rs.length ↔
      ∀ r ∈ rs, r.status = ToolStatus.failed ∨ r.status = ToolStatus.timeout := by
  induction rs with
  | nil => simp
  | cons r rest ih =>
    rw [List.filter_cons, List.filter_cons]
    by_cases hf : r.status = ToolStatus.failed
    · rw [if_pos (by simp [hf]), if_neg (by simp [hf])]
      simp only [List.length_cons, List.forall_mem_cons]
      constructor
      · intro h
        exact ⟨Or.inl hf, ih.mp (by omega)⟩
      · intro h
        have := ih.mpr h.2
        omega
    · by_cases ht : r.status = ToolStatus.timeout
      · rw [if_neg (by simp [hf]), if_pos (by simp [ht])]
        simp only [List.length_cons, List.forall_mem_cons]
        constructor
        · intro h
          exact ⟨Or.inr ht, ih.mp (by omega)⟩
        · intro h
          have := ih.mpr h.2
          omega
      · rw [if_neg (by simp [hf]), if_neg (by simp [ht])]
        simp only [List.length_cons, List.forall_mem_cons]
        have hle := count_failed_timeout_le rest
        constructor
        · intro h
          omega
        · intro h
          rcases h.1 with h1 | h1
          · exact absurd h1 hf
          · exact absurd h1 ht

/-- Claim C9: status derivation of `ResultAggregator`.  No results and no
errors gives pending; a nonempty all-success list gives success; a nonempty
list of only failed/timeout results gives failed; a timeout present while
not all results are failed-or-timeout gives timeout; and a mixture of
successes and failures with no timeout gives partial. -/
theorem result_aggregator_status_spec (results : List ToolResult)
    (errors : List ExecutionError) :
    (results = [] → errors = [] →
      ResultAggregator.determine_status results errors = ExecutionStatus.pending) ∧
    (results ≠ [] → (∀ r ∈ results, r.status = ToolStatus.success) →
      ResultAggregator.determine_status results errors = ExecutionStatus.success) ∧
    (results ≠ [] →
      (∀ r ∈ results, r.status = ToolStatus.failed ∨ r.status = ToolStatus.timeout) →
      ResultAggregator.determine_status results errors = ExecutionStatus.failed) ∧
    ((∃ r ∈ results, r.status = ToolStatus.timeout) →
      ¬ (∀ r ∈ results, r.status = ToolStatus.failed ∨ r.status = ToolStatus.timeout) →
      ResultAggregator.determine_status results errors = ExecutionStatus.timeout) ∧
    ((∃ r ∈ results, r.status = ToolStatus.success) →
      (∃ r ∈ results, r.status = ToolStatus.failed) →
      (∀ r ∈ results, r.status ≠ ToolStatus.timeout) →
      ResultAggregator.determine_status results errors = ExecutionStatus.partialStatus) := by
  refine ⟨?_, ?_, ?_, ?_, ?_⟩
  · rintro rfl rfl
    simp [ResultAggregator.determine_status]
  · intro hne hall
    have hcnt : (results.filter (fun r => r.status == ToolStatus.success)).length =
        results.length := by
      rw [List.filter_eq_self.mpr (fun r hr => by simp [hall r hr])]
    simp only [ResultAggregator.determine_status]
    rw [if_neg (by simp [hne]), if_pos ⟨hcnt, List.length_pos.mpr hne⟩]
  · intro hne hall
    have hcnt := (count_failed_timeout_iff results).mpr hall
    have hsucc : (results.filter (fun r => r.status == ToolStatus.success)).length ≠
        results.length := by
      intro h
      obtain ⟨r, hr⟩ := List.exists_mem_of_ne_nil results hne
      have := filter_length_eq_all _ _ h r hr
      rcases hall r hr with h1 | h1 <;> simp [h1] at this
    simp only [ResultAggregator.determine_status]
    rw [if_neg (by simp [hne]), if_neg (by intro h; exact hsucc h.1),
      if_pos (Or.inr hcnt)]
  · rintro ⟨rt, hrt, hrtst⟩ hnall
    push_neg at hnall
    obtain ⟨rb, hrb, hrbst⟩ := hnall
    have hne : results ≠ [] := List.ne_nil_of_mem hrt
    have hsucc : (results.filter (fun r => r.status == ToolStatus.success)).length ≠
        results.length := by
      intro h
      have := filter_length_eq_all _ _ h rt hrt
      simp [hrtst] at this
    have hfail : (results.filter (fun r => r.status == ToolStatus.failed)).length ≠
        results.length := by
      intro h
      have := filter_length_eq_all _ _ h rb hrb
      simp at this
      exact hrbst.1 this
    have hft : (results.filter (fun r => r.status == ToolStatus.failed)).length +
        (results.filter (fun r => r.status == ToolStatus.timeout)).length ≠
        results.length := by
      intro h
      rcases (count_failed_timeout_iff results).mp h rb hrb with h1 | h1
      · exact hrbst.1 h1
      · exact hrbst.2 h1
    have htc : 0 < (results.filter (fun r => r.status == ToolStatus.timeout)).length :=
      List.length_pos.mpr (List.ne_nil_of_mem (List.mem_filter.mpr ⟨hrt, by simp [hrtst]⟩))
    simp only [ResultAggregator.determine_status]
    rw [if_neg (by simp [hne]), if_neg (by intro h; exact hsucc h.1),
      if_neg (by rintro (h | h); exacts [hfail h, hft h]), if_pos htc]
  · rintro ⟨rs, hrs, hrsst⟩ ⟨rf, hrf, hrfst⟩ hnot
    have hne : results ≠ [] := List.ne_nil_of_mem hrs
    have hsucc : (results.filter (fun r => r.status == ToolStatus.success)).length ≠
        results.length := by
      intro h
      have := filter_length_eq_all _ _ h rf hrf
      simp [hrfst] at this
    have htc : (results.filter (fun r => r.status == ToolStatus.timeout)).length = 0 := by
      simp only [List.length_eq_zero]
      exact List.filter_eq_nil_iff.mpr (fun r hr => by simp [hnot r hr])
    have hfail : (results.filter (fun r => r.status == ToolStatus.failed)).length ≠
        results.length := by
      intro h
      have := filter_length_eq_all _ _ h rs hrs
      simp [hrsst] at this
    have hsc : 0 < (results.filter (fun r => r.status == ToolStatus.success)).length :=
      List.length_pos.mpr (List.ne_nil_of_mem (List.mem_filter.mpr ⟨hrs, by simp [hrsst]⟩))
    have hfc : 0 < (results.filter (fun r => r.status == ToolStatus.failed)).length :=
      List.length_pos.mpr (List.ne_nil_of_mem (List.mem_filter.mpr ⟨hrf, by simp [hrfst]⟩))
    simp only [ResultAggregator.determine_status]
    rw [if_neg (by simp [hne]), if_neg (by intro h; exact hsucc h.1),
      if_neg (by rintro (h | h); exacts [hfail h, hfail (by omega)]),
      if_neg (by omega), if_pos ⟨hsc, hfc⟩]

/-- Witness for `result_aggregator_status_spec`: empty input is pending, and
one success plus one failure is partial. -/
theorem result_aggregator_status_spec_witness :
    ResultAggregator.determine_status [] [] = ExecutionStatus.pending ∧
    ResultAggregator.determine_status
        [{ tool_name := "a", status := ToolStatus.success, execution_time_ms := 1 },
         { tool_name := "b", status := ToolStatus.failed, execution_time_ms := 1 }] [] =
      ExecutionStatus.partialStatus :=
  ⟨(result_aggregator_status_spec [] []).1 rfl rfl,
   (result_aggregator_status_spec
      [{ tool_name := "a", status := ToolStatus.success, execution_time_ms := 1 },
       { tool_name := "b", status := ToolStatus.failed, execution_time_ms := 1 }] []).2.2.2.2
     ⟨{ tool_name := "a", status := ToolStatus.success, execution_time_ms := 1 },
       List.mem_cons_self _ _, rfl⟩
     ⟨{ tool_name := "b", status := ToolStatus.failed, execution_time_ms := 1 },
       List.mem_cons_of_mem _ (List.mem_cons_self _ _), rfl⟩
     (by decide)⟩

/-! ## Tool calls, requests and responses (`execution/models`) -/

/-- A requested tool invocation, from `execution/models/tool.py`
(`ToolCall`); the parameter map is an association list of strings,
`timeout_seconds`, `retry_on_failure` and `metadata` are omitted (no claim
touches them). -/
structure ToolCall where
  tool_name : String
  params : List (String × String) := []
  deriving DecidableEq, Repr

/-- Execution request, from `execution/models/execution.py`
(`ExecutionRequest`); identifiers, timeout and metadata omitted. -/
structure ExecutionRequest where
  tool_calls : List ToolCall
  execution_mode : ExecutionMode := ExecutionMode.sequential
  stop_on_error : Bool := false
  deriving DecidableEq, Repr

/-- Execution response, from `execution/models/execution.py`
(`ExecutionResponse`); identifiers, timestamps, duration and metadata
omitted. -/
structure ExecutionResponse where
  status : ExecutionStatus
  results : List ToolResult
  errors : List ExecutionError
  deriving DecidableEq, Repr

/-- Response assembly, from `ResultAggregator.aggregate`: the response
status is `_determine_status` of the collected results and errors. -/
def ResultAggregator.aggregate (results : List ToolResult)
    (errors : List ExecutionError) : ExecutionResponse :=
  { status := ResultAggregator.determine_status results errors
    results := results
    errors := errors }

/-- The `.value` of an `ExecutionMode` member. -/
def ExecutionMode.value : ExecutionMode → String
  | ExecutionMode.sequential => "sequential"
  | ExecutionMode.parallel => "parallel"
  | ExecutionMode.conditional => "conditional"
  | ExecutionMode.compensating => "compensating"

/-! ## Registry validation and dispatcher
(`execution/core/registry.py`, `execution/core/dispatcher.py`) -/

/-- Tool-call validation, from `ToolRegistry.validate_tool_calls`: one error
string per call with a missing or unregistered tool name.  The registry is
abstracted to its list of registered tool names; the exact Python `repr`
formatting of the known-names list is elided to a comma-separated join. -/
def ToolRegistry.validate_tool_calls (registered : List String)
    (calls : List ToolCall) : List String :=
  calls.enum.filterMap (fun p =>
    if p.2.tool_name = "" then
      some ("Tool call " ++ toString p.1 ++ ": missing tool_name")
    else if registered.contains p.2.tool_name = false then
      some ("Tool call " ++ toString p.1 ++ ": unknown tool " ++ p.2.tool_name ++
        ". Available tools: " ++ String.intercalate ", " registered)
    else none)

/-- Sequential execution, from `ExecutionDispatcher._execute_sequential`.
The executor invocation `executor.execute(tool, call.params, context)` is
abstracted by the total function `behavior` (by claim C3 the executor always
returns a `ToolResult`).  A missing tool records a context error and either
stops (under `stop_on_error`) or is skipped; an executed call's result is
appended to the context and the output; a non-success result under
`stop_on_error` stops the loop. -/
def ExecutionDispatcher.execSequential (registered : List String)
    (behavior : ToolCall → ToolResult) :
    List ToolCall → ExecutionContext → Bool → List ToolResult × ExecutionContext
  | [], ctx, _ => ([], ctx)
  | call :: rest, ctx, stop_on_error =>
    if registered.contains call.tool_name = false then
      let ctx' := ctx.add_error
        { message := "Tool not found: " ++ call.tool_name
          tool_name := some call.tool_name
          error_code := some "TOOL_NOT_FOUND"
          error_type := "ToolNotFoundError" }
      if stop_on_error then ([], ctx')
      else ExecutionDispatcher.execSequential registered behavior rest ctx' stop_on_error
    else
      let result := behavior call
      let ctx' := ctx.add_result result
      if stop_on_error && !result.success then ([result], ctx')
      else
        let out := ExecutionDispatcher.execSequential registered behavior rest ctx' stop_on_error
        (result :: out.1, out.2)

/-- Parallel execution, from `ExecutionDispatcher._execute_parallel`: every
call yields a result in submission order (a synthetic failed result for a
missing tool, which also records a context error), and all results are then
appended to the context. -/
def ExecutionDispatcher.execParallel (registered : List String)
    (behavior : ToolCall → ToolResult) (calls : List ToolCall)
    (ctx : ExecutionContext) : List ToolResult × ExecutionContext :=
  let results := calls.map (fun call =>
    if registered.contains call.tool_name = false then
      { tool_name := call.tool_name
        status := ToolStatus.failed
        error := some ("Tool not found: " ++ call.tool_name)
        execution_time_ms := 0 }
    else behavior call)
  let ctx' := calls.foldl (fun c call =>
    if registered.contains call.tool_name = false then
      c.add_error
        { message := "Tool not found: " ++ call.tool_name
          tool_name := some call.tool_name
          error_code := some "TOOL_NOT_FOUND"
          error_type := "ToolNotFoundError" }
    else c) ctx
  (results, ctx'.addResults results)

/-- The `ExecutionDispatcher.dispatch` flow over a fresh context: validate
the referenced tools (failing fast with `INVALID_TOOL_CALL` errors), run the
mode's execution path for sequential or parallel, derive the completion
status, and aggregate.  Conditional and compensating modes hit the source's
`raise ValueError(f"Unsupported execution mode: ...")`, which the top-level
handler converts into a failed-complete context and a single
`EXECUTION_ERROR` entry (the enum's rendering inside the message is elided
to `.value`). -/
def ExecutionDispatcher.dispatch (registered : List String)
    (behavior : ToolCall → ToolResult) (req : ExecutionRequest) :
    ExecutionResponse × ExecutionContext :=
  let context : ExecutionContext := {}
  let validation_errors := ToolRegistry.validate_tool_calls registered req.tool_calls
  if validation_errors = [] then
    match req.execution_mode with
    | ExecutionMode.sequential =>
      let out := ExecutionDispatcher.execSequential registered behavior
        req.tool_calls context req.stop_on_error
      let status :=
        if out.1.all ToolResult.success then ExecutionStatus.success
        else if out.1.any ToolResult.success then ExecutionStatus.partialStatus
        else ExecutionStatus.failed
      let context' := out.2.complete status
      (ResultAggregator.aggregate out.1 context'.errors, context')
    | ExecutionMode.parallel =>
      let out := ExecutionDispatcher.execParallel registered behavior
        req.tool_calls context
      let status :=
        if out.1.all ToolResult.success then ExecutionStatus.success
        else if out.1.any ToolResult.success then ExecutionStatus.partialStatus
        else ExecutionStatus.failed
      let context' := out.2.complete status
      (ResultAggregator.aggregate out.1 context'.errors, context')
    | m =>
      let context' := context.complete ExecutionStatus.failed
      (ResultAggregator.aggregate context'.results
        [{ message := "Unsupported execution mode: " ++ m.value
           error_type := "ValueError"
           error_code := some "EXECUTION_ERROR" }], context')
  else
    let context' := context.complete ExecutionStatus.failed
    (ResultAggregator.aggregate []
      (validation_errors.map (fun e =>
        { message := e
          error_type := "ValidationError"
          error_code := some "INVALID_TOOL_CALL" })), context')

/-- Behaviour used by dispatcher witnesses: every call succeeds. -/
def demoOkBehavior : ToolCall → ToolResult := fun call =>
  { tool_name := call.tool_name
    status := ToolStatus.success
    execution_time_ms := 1 }

/-- A request naming the registered tool "a" with conditional mode. -/
def demoCondReq : ExecutionRequest :=
  { tool_calls := [{ tool_name := "a" }]
    execution_mode := ExecutionMode.conditional }

/-- A request naming the registered tool "a" with sequential mode. -/
def demoSeqReq : ExecutionRequest :=
  { tool_calls := [{ tool_name := "a" }]
    execution_mode := ExecutionMode.sequential }

/-- Claim C2, counterexample: a request whose single tool "a" is registered
(and whose execution would succeed) but whose mode is `conditional` is not
dispatched to any strategy: the response carries no results, a single
`ValueError` execution error, and a failed status — the source's `dispatch`
only implements the sequential and parallel branches and raises on the
other two modes. -/
theorem dispatcher_unsupported_mode_counterexample :
    (ExecutionDispatcher.dispatch ["a"] demoOkBehavior demoCondReq).1.results = [] ∧
    (ExecutionDispatcher.dispatch ["a"] demoOkBehavior demoCondReq).1.errors =
      [{ message := "Unsupported execution mode: conditional"
         error_type := "ValueError"
         error_code := some "EXECUTION_ERROR" }] ∧
    (ExecutionDispatcher.dispatch ["a"] demoOkBehavior demoCondReq).1.status =
      ExecutionStatus.failed ∧
    (ExecutionDispatcher.dispatch ["a"] demoOkBehavior demoCondReq).2.status =
      ExecutionStatus.failed := by
  refine ⟨rfl, by decide, by decide, rfl⟩

/-- Claim C2 as amended: for a request whose referenced tools all validate,
`dispatch` marks the context complete and returns the aggregated response of
the selected execution path for the sequential and parallel modes; for the
conditional and compensating modes no strategy is executed — the dispatcher
raises internally, the top-level handler marks the context failed, and the
response carries no results and one `EXECUTION_ERROR` execution error. -/
theorem dispatcher_mode_selection (registered : List String)
    (behavior : ToolCall → ToolResult) (req : ExecutionRequest)
    (hvalid : ToolRegistry.validate_tool_calls registered req.tool_calls = []) :
    (ExecutionDispatcher.dispatch registered behavior req).2.completed = true ∧
    (req.execution_mode = ExecutionMode.sequential →
      (ExecutionDispatcher.dispatch registered behavior req).1.results =
        (ExecutionDispatcher.execSequential registered behavior req.tool_calls {}
          req.stop_on_error).1) ∧
    (req.execution_mode = ExecutionMode.parallel →
      (ExecutionDispatcher.dispatch registered behavior req).1.results =
        (ExecutionDispatcher.execParallel registered behavior req.tool_calls {}).1) ∧
    ((req.execution_mode = ExecutionMode.conditional ∨
      req.execution_mode = ExecutionMode.compensating) →
      (ExecutionDispatcher.dispatch registered behavior req).1.results = [] ∧
      (ExecutionDispatcher.dispatch registered behavior req).1.errors =
        [{ message := "Unsupported execution mode: " ++ req.execution_mode.value
           error_type := "ValueError"
           error_code := some "EXECUTION_ERROR" }] ∧
      (ExecutionDispatcher.dispatch registered behavior req).2.status =
        ExecutionStatus.failed) ∧
    (ExecutionDispatcher.dispatch registered behavior req).1.status =
      ResultAggregator.determine_status
        (ExecutionDispatcher.dispatch registered behavior req).1.results
        (ExecutionDispatcher.dispatch registered behavior req).1.errors := by
  cases hm : req.execution_mode with
  | sequential =>
    simp [ExecutionDispatcher.dispatch, hvalid, hm, ExecutionContext.complete,
      ResultAggregator.aggregate]
  | parallel =>
    simp [ExecutionDispatcher.dispatch, hvalid, hm, ExecutionContext.complete,
      ResultAggregator.aggregate]
  | conditional =>
    simp [ExecutionDispatcher.dispatch, hvalid, hm, ExecutionContext.complete,
      ResultAggregator.aggregate, ExecutionMode.value]
  | compensating =>
    simp [ExecutionDispatcher.dispatch, hvalid, hm, ExecutionContext.complete,
      ResultAggregator.aggregate, ExecutionMode.value]

/-- Witness for `dispatcher_mode_selection`: one registered tool dispatched
sequentially; the context ends complete and the response carries the
sequential path's results. -/
theorem dispatcher_mode_selection_witness :
    (ExecutionDispatcher.dispatch ["a"] demoOkBehavior demoSeqReq).2.completed = true ∧
    (ExecutionDispatcher.dispatch ["a"] demoOkBehavior demoSeqReq).1.results =
      (ExecutionDispatcher.execSequential ["a"] demoOkBehavior
        demoSeqReq.tool_calls {} false).1 := by
  have h := dispatcher_mode_selection ["a"] demoOkBehavior demoSeqReq (by decide)
  exact ⟨h.1, h.2.1 rfl⟩

/-! ## Sequential strategy (`execution/strategies/sequential.py`) -/

/-- The loop body of `SequentialStrategy.execute`, carrying the accumulated
`results` list (needed by `pass_results`, which reads `results[-1]`).  A
missing tool stops the loop under `stop_on_error` and is skipped otherwise;
an executed call appends its result to the accumulator and the context and
stops after a non-success result under `stop_on_error`.  With
`pass_results`, a previous successful result with a (truthy) data payload is
threaded into the next call's params under the reserved key
`_previous_result`. -/
def seqStrategyLoop (registered : List String)
    (behavior : String → List (String × String) → ToolResult)
    (stop_on_error pass_results : Bool) :
    List ToolCall → List ToolResult → ExecutionContext →
      List ToolResult × ExecutionContext
  | [], acc, ctx => (acc, ctx)
  | call :: rest, acc, ctx =>
    if registered.contains call.tool_name = false then
      if stop_on_error then (acc, ctx)
      else seqStrategyLoop registered behavior stop_on_error pass_results rest acc ctx
    else
      let params :=
        match pass_results, acc.getLast? with
        | true, some last =>
          match last.status == ToolStatus.success, last.data with
          | true, some d => call.params ++ [("_previous_result", d)]
          | _, _ => call.params
        | _, _ => call.params
      let result := behavior call.tool_name params
      let acc' := acc ++ [result]
      let ctx' := ctx.add_result result
      if result.success = false && stop_on_error then (acc', ctx')
      else seqStrategyLoop registered behavior stop_on_error pass_results rest acc' ctx'

/-- Sequential strategy entry point, from `SequentialStrategy.execute`. -/
def SequentialStrategy.execute (registered : List String)
    (behavior : String → List (String × String) → ToolResult)
    (calls : List ToolCall) (ctx : ExecutionContext)
    (stop_on_error : Bool := false) (pass_results : Bool := false) :
    List ToolResult × ExecutionContext :=
  seqStrategyLoop registered behavior stop_on_error pass_results calls [] ctx

/-- Reference function written from the spec sentence for claim C7: the
results of the calls up to and including the first whose result is not
successful, in list order. -/
def seqStopSpec (f : ToolCall → ToolResult) : List ToolCall → List ToolResult
  | [] => []
  | c :: cs =>
    let r := f c
    if r.success then r :: seqStopSpec f cs else [r]

theorem seqStrategyLoop_stop_spec (registered : List String)
    (behavior : String → List (String × String) → ToolResult)
    (calls : List ToolCall)
    (hreg : ∀ c ∈ calls, registered.contains c.tool_name = true) :
    ∀ (acc : List ToolResult) (ctx : ExecutionContext),
      seqStrategyLoop registered behavior true false calls acc ctx =
        (acc ++ seqStopSpec (fun c => behavior c.tool_name c.params) calls,
         ctx.addResults (seqStopSpec (fun c => behavior c.tool_name c.params) calls)) := by
  induction calls with
  | nil => intro acc ctx; simp [seqStrategyLoop, seqStopSpec, ExecutionContext.addResults]
  | cons call rest ih =>
    intro acc ctx
    have hc := hreg call (List.mem_cons_self _ _)
    have hrest : ∀ c ∈ rest, registered.contains c.tool_name = true :=
      fun c hcm => hreg c (List.mem_cons_of_mem _ hcm)
    have hmem : call.tool_name ∈ registered := by simpa using hc
    cases hs : (behavior call.tool_name call.params).success with
    | false =>
      simp [seqStrategyLoop, hc, hmem, hs, seqStopSpec, ExecutionContext.addResults]
    | true =>
      simp [seqStrategyLoop, hc, hmem, hs, seqStopSpec, ih hrest,
        ExecutionContext.addResults]

/-- Claim C7: sequential execution with `stop_on_error` (over registered
tools, without result passing — the strategy's default and the dispatcher's
only form) returns exactly the results of the calls up to and including the
first failing call, in order; subsequent calls are not executed, so the
context too only receives those results. -/
theorem sequential_stop_on_error_spec (registered : List String)
    (behavior : String → List (String × String) → ToolResult)
    (calls : List ToolCall) (ctx : ExecutionContext)
    (hreg : ∀ c ∈ calls, registered.contains c.tool_name = true) :
    (SequentialStrategy.execute registered behavior calls ctx true false).1 =
      seqStopSpec (fun c => behavior c.tool_name c.params) calls ∧
    (SequentialStrategy.execute registered behavior calls ctx true false).2.results =
      ctx.results ++ (seqStopSpec (fun c => behavior c.tool_name c.params) calls) := by
  have h := seqStrategyLoop_stop_spec registered behavior calls hreg [] ctx
  rw [SequentialStrategy.execute, h]
  refine ⟨by simp, ?_⟩
  exact context_addResults_results ctx
    (seqStopSpec (fun c => behavior c.tool_name c.params) calls)

/-- Witness for `sequential_stop_on_error_spec`: calls A, B, C where A
succeeds, B fails and C would succeed; the output is exactly the results of
A and B. -/
theorem sequential_stop_on_error_spec_witness :
    (SequentialStrategy.execute ["A", "B", "C"]
        (fun n _ =>
          if n = "B" then
            { tool_name := n, status := ToolStatus.failed, execution_time_ms := 1 }
          else
            { tool_name := n, status := ToolStatus.success, execution_time_ms := 1 })
        [{ tool_name := "A" }, { tool_name := "B" }, { tool_name := "C" }] {}
        true false).1 =
      [{ tool_name := "A", status := ToolStatus.success, execution_time_ms := 1 },
       { tool_name := "B", status := ToolStatus.failed, execution_time_ms := 1 }] := by
  have h := sequential_stop_on_error_spec ["A", "B", "C"]
    (fun n _ =>
      if n = "B" then
        { tool_name := n, status := ToolStatus.failed, execution_time_ms := 1 }
      else
        { tool_name := n, status := ToolStatus.success, execution_time_ms := 1 })
    [{ tool_name := "A" }, { tool_name := "B" }, { tool_name := "C" }] {}
    (by decide)
  rw [h.1]
  rfl

/-! ## Compensating strategy (`execution/strategies/compensating.py`) -/

/-- A compensating action for rollback, from `CompensatingAction`. -/
structure CompensatingAction where
  tool_name : String
  params : List (String × String) := []
  deriving DecidableEq, Repr

/-- A saga step, from `TransactionStep`: a forward call with an optional
compensating action. -/
structure TransactionStep where
  forward : ToolCall
  compensate : Option CompensatingAction := none
  deriving DecidableEq, Repr

/-- The rollback pass of `CompensatingStrategy._rollback`, iterating over
the already-reversed executed-steps list: a step with no compensating
action is skipped, a compensating action naming an unregistered tool is
skipped, otherwise the compensation executes (its params extended with the
forward result's data under `_forward_result` when present) and its result
is appended to the context regardless of success.  The second output
component logs the compensation tool names invoked, in order — a model
observable used to state claim C8. -/
def rollbackLoop (registered : List String)
    (behavior : String → List (String × String) → ToolResult) :
    List (TransactionStep × ToolResult) → ExecutionContext →
      ExecutionContext × List String
  | [], ctx => (ctx, [])
  | (step, forward_result) :: rest, ctx =>
    match step.compensate with
    | none => rollbackLoop registered behavior rest ctx
    | some ca =>
      if registered.contains ca.tool_name = false then
        rollbackLoop registered behavior rest ctx
      else
        let params := ca.params ++
          (match forward_result.data with
           | some d => [("_forward_result", d)]
           | none => [])
        let result := behavior ca.tool_name params
        let ctx' := ctx.add_result result
        let out := rollbackLoop registered behavior rest ctx'
        (out.1, ca.tool_name :: out.2)

/-- Rollback entry point, from `CompensatingStrategy._rollback`:
compensations run in reverse order of execution. -/
def CompensatingStrategy.rollback (registered : List String)
    (behavior : String → List (String × String) → ToolResult)
    (executed : List (TransactionStep × ToolResult)) (ctx : ExecutionContext) :
    ExecutionContext × List String :=
  rollbackLoop registered behavior executed.reverse ctx

/-- The forward loop of `CompensatingStrategy.execute`: a missing forward
tool triggers rollback of the executed steps and halts; a failed forward
result (appended to output and context) triggers rollback and halts; a
successful step joins the executed list. -/
def compForwardLoop (registered : List String)
    (behavior : String → List (String × String) → ToolResult) :
    List TransactionStep → List (TransactionStep × ToolResult) → ExecutionContext →
      List ToolResult × ExecutionContext × List String
  | [], _, ctx => ([], ctx, [])
  | step :: rest, executed, ctx =>
    if registered.contains step.forward.tool_name = false then
      let out := CompensatingStrategy.rollback registered behavior executed ctx
      ([], out.1, out.2)
    else
      let result := behavior step.forward.tool_name step.forward.params
      let ctx' := ctx.add_result result
      if result.success = false then
        let out := CompensatingStrategy.rollback registered behavior executed ctx'
        ([result], out.1, out.2)
      else
        let out := compForwardLoop registered behavior rest
          (executed ++ [(step, result)]) ctx'
        (result :: out.1, out.2.1, out.2.2)

/-- Saga execution entry point, from `CompensatingStrategy.execute`. -/
def CompensatingStrategy.execute (registered : List String)
    (behavior : String → List (String × String) → ToolResult)
    (steps : List TransactionStep) (ctx : ExecutionContext) :
    List ToolResult × ExecutionContext × List String :=
  compForwardLoop registered behavior steps [] ctx

/-- Reference function written from the spec sentences for claim C8: the
compensation tool names of the given steps in reverse order, skipping steps
without a compensating action (and compensations naming unregistered
tools). -/
def rollbackNamesSpec (registered : List String) (steps : List TransactionStep) :
    List String :=
  steps.reverse.filterMap (fun s =>
    match s.compensate with
    | some ca =>
      if registered.contains ca.tool_name then some ca.tool_name else none
    | none => none)

theorem rollbackLoop_names (registered : List String)
    (behavior : String → List (String × String) → ToolResult) :
    ∀ (l : List (TransactionStep × ToolResult)) (ctx : ExecutionContext),
      (rollbackLoop registered behavior l ctx).2 =
        l.filterMap (fun p =>
          match p.1.compensate with
          | some ca =>
            if registered.contains ca.tool_name then some ca.tool_name else none
          | none => none) := by
  intro l
  induction l with
  | nil => intro ctx; simp [rollbackLoop]
  | cons p rest ih =>
    intro ctx
    obtain ⟨step, forward_result⟩ := p
    match hcomp : step.compensate with
    | none =>
      simp [rollbackLoop, hcomp, ih]
    | some ca =>
      by_cases hca : registered.contains ca.tool_name = true
      · have hmem : ca.tool_name ∈ registered := by simpa using hca
        simp [rollbackLoop, hcomp, hca, hmem, ih, List.filterMap_cons]
      · have hca' : registered.contains ca.tool_name = false := by
          cases h : registered.contains ca.tool_name
          · rfl
          · exact absurd h hca
        have hmem : ca.tool_name ∉ registered := by simpa using hca'
        simp [rollbackLoop, hcomp, hca', hmem, ih, List.filterMap_cons]

theorem rollback_names (registered : List String)
    (behavior : String → List (String × String) → ToolResult)
    (executed : List (TransactionStep × ToolResult)) (ctx : ExecutionContext) :
    (CompensatingStrategy.rollback registered behavior executed ctx).2 =
      rollbackNamesSpec registered (executed.map Prod.fst) := by
  rw [CompensatingStrategy.rollback, rollbackLoop_names, rollbackNamesSpec,
    ← List.map_reverse, List.filterMap_map]
  rfl

theorem compForwardLoop_first_failure (registered : List String)
    (behavior : String → List (String × String) → ToolResult)
    (pre : List TransactionStep) (sfail : TransactionStep)
    (post : List TransactionStep)
    (hpre : ∀ s ∈ pre, registered.contains s.forward.tool_name = true ∧
      (behavior s.forward.tool_name s.forward.params).success = true)
    (hfail : registered.contains sfail.forward.tool_name = false ∨
      (behavior sfail.forward.tool_name sfail.forward.params).success = false) :
    ∀ (executed : List (TransactionStep × ToolResult)) (ctx : ExecutionContext),
      (compForwardLoop registered behavior (pre ++ sfail :: post) executed ctx).1 =
        pre.map (fun s => behavior s.forward.tool_name s.forward.params) ++
          (if registered.contains sfail.forward.tool_name = true then
            [behavior sfail.forward.tool_name sfail.forward.params] else []) ∧
      (compForwardLoop registered behavior (pre ++ sfail :: post) executed ctx).2.2 =
        rollbackNamesSpec registered (executed.map Prod.fst ++ pre) := by
  induction pre with
  | nil =>
    intro executed ctx
    rcases hfail with hmiss | hbad
    · have hm : sfail.forward.tool_name ∉ registered := by simpa using hmiss
      simp [compForwardLoop, hmiss, hm, rollback_names]
    · by_cases hreg : registered.contains sfail.forward.tool_name = true
      · have hm : sfail.forward.tool_name ∈ registered := by simpa using hreg
        simp [compForwardLoop, hreg, hm, hbad, rollback_names]
      · have hreg' : registered.contains sfail.forward.tool_name = false := by
          cases h : registered.contains sfail.forward.tool_name
          · rfl
          · exact absurd h hreg
        have hm : sfail.forward.tool_name ∉ registered := by simpa using hreg'
        simp [compForwardLoop, hreg', hm, rollback_names]
  | cons step pre' ih =>
    intro executed ctx
    obtain ⟨hsreg, hsok⟩ := hpre step (List.mem_cons_self _ _)
    have hpre' : ∀ s ∈ pre', registered.contains s.forward.tool_name = true ∧
        (behavior s.forward.tool_name s.forward.params).success = true :=
      fun s hs => hpre s (List.mem_cons_of_mem _ hs)
    have hrec := ih hpre'
      (executed ++ [(step, behavior step.forward.tool_name step.forward.params)])
      (ctx.add_result (behavior step.forward.tool_name step.forward.params))
    have hsm : step.forward.tool_name ∈ registered := by simpa using hsreg
    constructor
    · simp [compForwardLoop, hsreg, hsm, hsok, hrec.1]
    · simp [compForwardLoop, hsreg, hsm, hsok, hrec.2]

/-- Claim C8: on the first forward step that fails (or names a missing
tool) the saga halts: the forward results are exactly those of the
successful prefix plus, when the failing tool exists, its failed result;
and the compensations invoked are exactly the compensating actions of the
previously successful steps, in reverse order of execution — the failed
step is never compensated, steps without a compensating action are
skipped, and the invocation list does not depend on the compensations'
own results, so a failing compensation never prevents the remaining
ones. -/
theorem compensating_saga_spec (registered : List String)
    (behavior : String → List (String × String) → ToolResult)
    (pre : List TransactionStep) (sfail : TransactionStep)
    (post : List TransactionStep) (ctx : ExecutionContext)
    (hpre : ∀ s ∈ pre, registered.contains s.forward.tool_name = true ∧
      (behavior s.forward.tool_name s.forward.params).success = true)
    (hfail : registered.contains sfail.forward.tool_name = false ∨
      (behavior sfail.forward.tool_name sfail.forward.params).success = false) :
    (CompensatingStrategy.execute registered behavior (pre ++ sfail :: post) ctx).1 =
      pre.map (fun s => behavior s.forward.tool_name s.forward.params) ++
        (if registered.contains sfail.forward.tool_name = true then
          [behavior sfail.forward.tool_name sfail.forward.params] else []) ∧
    (CompensatingStrategy.execute registered behavior (pre ++ sfail :: post) ctx).2.2 =
      rollbackNamesSpec registered pre := by
  have h := compForwardLoop_first_failure registered behavior pre sfail post hpre hfail
    [] ctx
  refine ⟨h.1, ?_⟩
  rw [CompensatingStrategy.execute, h.2]
  rfl

/-- Witness for `compensating_saga_spec`: steps S1 (ok, comp c1), S2 (ok,
comp c2), S3 (fails, comp c3); the compensations invoked are exactly
`[c2, c1]`. -/
theorem compensating_saga_spec_witness :
    (CompensatingStrategy.execute ["s1", "s2", "s3", "c1", "c2", "c3"]
        (fun n _ =>
          if n = "s3" then
            { tool_name := n, status := ToolStatus.failed, execution_time_ms := 1 }
          else
            { tool_name := n, status := ToolStatus.success, execution_time_ms := 1 })
        [{ forward := { tool_name := "s1" }, compensate := some { tool_name := "c1" } },
         { forward := { tool_name := "s2" }, compensate := some { tool_name := "c2" } },
         { forward := { tool_name := "s3" }, compensate := some { tool_name := "c3" } }]
        {}).2.2 = ["c2", "c1"] := by
  have h := compensating_saga_spec ["s1", "s2", "s3", "c1", "c2", "c3"]
    (fun n _ =>
      if n = "s3" then
        { tool_name := n, status := ToolStatus.failed, execution_time_ms := 1 }
      else
        { tool_name := n, status := ToolStatus.success, execution_time_ms := 1 })
    [{ forward := { tool_name := "s1" }, compensate := some { tool_name := "c1" } },
     { forward := { tool_name := "s2" }, compensate := some { tool_name := "c2" } }]
    { forward := { tool_name := "s3" }, compensate := some { tool_name := "c3" } }
    [] {} (by decide) (by right; rfl)
  exact h.2

end Agentic
